import Mathlib

/-!
Verification of the chrisolsen/router request router (src/router.go, first
version in the file, whose line numbers the claims reference).

Modelling conventions:
  - Go strings are embedded as `List Char` (`Str`), and the Go standard
    library functions used by the router (`strings.Trim`, `strings.Split`,
    `strings.Join`, `strings.Contains`, `strings.Index`, `strings.Replace`
    with count 1, `strings.ToUpper`) are embedded as structural Lean
    functions with the same semantics on the arguments the router uses.
  - A Go `map[string]string` is embedded as an association list built by
    key-overwriting insertion (`mapInsert`); the router only ever reads such
    maps through key lookup.
  - A request together with its response writer is embedded as `ReqState`:
    the context value under the params key (`ctxParams`), whether the
    current request context reports a non-nil cancellation error (`halted`),
    the response status written so far (`status`, first write wins as in
    net/http), and an observation log (`log`) that concrete test handlers
    append to.  `http.HandlerFunc` becomes `MW := ReqState → ReqState`.
  - Functions that can abort with a Go runtime panic (indexing an empty
    string with `seg[0]`, dereferencing the nil `*Router` returned by
    `findMatchingRouter`, invoking a nil handler) return `Option`, with
    `none` for the panic.
  - `Router.ServeHTTP`, `Router.run` and `Router.findMatchingRouter` have
    value receivers in the source, and `findMatchingRouter` returns a
    pointer to its receiver copy; the `Before` performed during dispatch
    therefore appends to a per-dispatch copy of the resolved router and the
    persistent router tree is never mutated by dispatch.  The embedding
    makes this explicit: `ServeHTTP` returns the (unchanged) router tree
    next to the final request state, and the chain it runs is
    `rr.mw ++ [setURLParams params]`.
  - The iteration order of the Go route map is unspecified; it is embedded
    as the list order of `routes`.  Claims settled on concrete routers use
    route tables for which the order cannot affect the outcome.
-/

/-- Go strings, embedded as their character lists. -/
abbrev Str := List Char

/-- Conversion from a Lean string literal to the embedded Go string. -/
def str (s : String) : Str := s.data

/-- Go strings.Trim(s, "/"): remove leading and trailing slash characters. -/
def goTrimSlash (s : Str) : Str :=
  ((s.dropWhile (· = '/')).reverse.dropWhile (· = '/')).reverse

/-- Go strings.Split(s, "/"): split at every slash; the empty string yields
one empty segment. -/
def goSplitSlash : Str → List Str
  | [] => [[]]
  | c :: cs =>
    match goSplitSlash cs with
    | [] => [[]]
    | p :: ps => if c = '/' then [] :: p :: ps else (c :: p) :: ps

/-- Go strings.Join(parts, "/"). -/
def goJoinSlash : List Str → Str
  | [] => []
  | [p] => p
  | p :: ps => p ++ '/' :: goJoinSlash ps

/-- Helper for Go strings.Replace(s, pat, "", 1) with nonempty pat: remove
the first occurrence of pat from s. -/
def replaceFirstAux (pat : Str) : Str → Str
  | [] => []
  | c :: cs =>
    if pat.isPrefixOf (c :: cs) then (c :: cs).drop pat.length
    else c :: replaceFirstAux pat cs

/-- Go strings.Replace(s, pat, "", 1): with an empty pat the replacement is
inserted before the string, which for an empty replacement returns s. -/
def goReplaceFirst (s pat : Str) : Str :=
  if pat = [] then s else replaceFirstAux pat s

/-- Go strings.ToUpper restricted to the ASCII arguments the router meets. -/
def goToUpper (s : Str) : Str := s.map Char.toUpper

/-- Go strings.Index(s, pat) == 0, that is: pat occurs at the start of s. -/
def goHasPre (s pat : Str) : Bool := pat.isPrefixOf s

/-- Go map assignment m[k] = v on a string map embedded as an association
list: overwrite the existing entry for k in place, or append a new one. -/
def mapInsert (m : List (Str × Str)) (k v : Str) : List (Str × Str) :=
  match m with
  | [] => [(k, v)]
  | (k2, v2) :: rest => if k2 = k then (k, v) :: rest else (k2, v2) :: mapInsert rest k v

/-- Observable events that concrete handlers and middleware of the
development append to the request log, recording what they saw when run. -/
inductive Ev where
  | mwSaw (i : Nat) (seen : List (Str × Str))
  | handlerSaw (seen : List (Str × Str))
  | tag (n : Nat)
deriving DecidableEq

/-- The per-request world: the request context (params value and
cancellation state) together with the response writer (status) and an
observation log. -/
structure ReqState where
  ctxParams : Option (List (Str × Str)) := none
  halted : Bool := false
  status : Option Nat := none
  log : List Ev := []
deriving DecidableEq

/-- http.HandlerFunc: middleware and handlers transform the request world. -/
abbrev MW := ReqState → ReqState

/-- HaltRequest (router.go:43): derive a cancellable context from the
request context, rebind it, and cancel it immediately, so that the request
context reports a non-nil error from now on. -/
def HaltRequest (s : ReqState) : ReqState := { s with halted := true }

/-- setURLParams (router.go:260): a handler that binds the extracted params
map into the request context. -/
def setURLParams (params : List (Str × Str)) : MW :=
  fun s => { s with ctxParams := some params }

/-- Params (router.go:50): the params map bound in the context, or the
empty map when absent. -/
def Params (s : ReqState) : List (Str × Str) := s.ctxParams.getD []

/-- ResponseWriter.WriteHeader: net/http ignores a second status write. -/
def writeHeader (s : ReqState) (code : Nat) : ReqState :=
  if s.status = none then { s with status := some code } else s

/-- An incoming request: transport method, the Content-Type header value,
the form values that FormValue resolves after parsing (query and body
fields of the parsed form), and the URL path. -/
structure GoRequest where
  method : Str
  contentType : Str := []
  form : List (Str × Str) := []
  urlPath : Str

/-- Request.FormValue(k): the first parsed form value for key k, or the
empty string when the key is absent. -/
def formValue (req : GoRequest) (k : Str) : Str :=
  match req.form.find? (fun p => p.1 == k) with
  | some p => p.2
  | none => []

/-- getMethod (router.go:189): switch on the Content-Type header; for
exactly multipart/form-data or text/html parse the form and use the
upper-cased nonempty _method field as the effective method; every other
content type falls to the default case and keeps the transport method. -/
def getMethod (req : GoRequest) : Str :=
  if req.contentType == str "multipart/form-data" || req.contentType == str "text/html" then
    let m := formValue req (str "_method")
    if m != [] then goToUpper m else req.method
  else req.method

/-- Route (router.go:19): the route table key. -/
structure GoRoute where
  path : Str
  method : Str
deriving DecidableEq

/-- ops (router.go:13): the handler descriptor, a plain function or a
handler object (embedded by its ServeHTTP method). -/
structure GoOps where
  fn : Option MW := none
  handler : Option MW := none

/-- Router (router.go:65): base path, route table, child sub-routers,
optional not-found handler, middleware list. -/
inductive GoRouter where
  | mk (basePath : Str) (routes : List (GoRoute × GoOps)) (subRouters : List GoRouter)
      (notFoundHandler : Option MW) (mw : List MW)

def GoRouter.basePath : GoRouter → Str
  | .mk bp _ _ _ _ => bp

def GoRouter.routes : GoRouter → List (GoRoute × GoOps)
  | .mk _ rs _ _ _ => rs

def GoRouter.subRouters : GoRouter → List GoRouter
  | .mk _ _ subs _ _ => subs

def GoRouter.notFoundHandler : GoRouter → Option MW
  | .mk _ _ _ nfh _ => nfh

def GoRouter.mw : GoRouter → List MW
  | .mk _ _ _ _ mws => mws

/-- New (router.go:25): an empty path defaults to the root base path. -/
def New (path : Str) : GoRouter :=
  .mk (if path.length = 0 then str "/" else path) [] [] none []

/-- Before (router.go:75): append handler functions to the middleware
chain. -/
def GoRouter.Before (r : GoRouter) (fns : List MW) : GoRouter :=
  match r with
  | .mk bp rs subs nfh mws => .mk bp rs subs nfh (mws ++ fns)

/-- NotFound (router.go:171): set the custom 404 handler. -/
def GoRouter.NotFound (r : GoRouter) (h : MW) : GoRouter :=
  match r with
  | .mk bp rs subs _ mws => .mk bp rs subs (some h) mws

/-- Go map assignment on the route table (key-overwriting insertion). -/
def routesInsert (rs : List (GoRoute × GoOps)) (k : GoRoute) (v : GoOps) :
    List (GoRoute × GoOps) :=
  match rs with
  | [] => [(k, v)]
  | (k2, v2) :: rest => if k2 = k then (k, v) :: rest else (k2, v2) :: routesInsert rest k v

/-- bindRoute (router.go:136): store the descriptor under the route key.
The Go route map is shared by reference, so registration through a value
receiver still updates the router. -/
def GoRouter.bindRoute (r : GoRouter) (method path : Str) (p : GoOps) : GoRouter :=
  match r with
  | .mk bp rs subs nfh mws => .mk bp (routesInsert rs ⟨path, method⟩ p) subs nfh mws

/-- HandleFunc (router.go:118). -/
def GoRouter.HandleFunc (r : GoRouter) (method path : Str) (fn : MW) : GoRouter :=
  r.bindRoute method path { fn := some fn }

/-- Get (router.go:141). -/
def GoRouter.Get (r : GoRouter) (path : Str) (fn : MW) : GoRouter :=
  r.bindRoute (str "GET") path { fn := some fn }

/-- Post (router.go:146). -/
def GoRouter.Post (r : GoRouter) (path : Str) (fn : MW) : GoRouter :=
  r.bindRoute (str "POST") path { fn := some fn }

/-- Put (router.go:151). -/
def GoRouter.Put (r : GoRouter) (path : Str) (fn : MW) : GoRouter :=
  r.bindRoute (str "PUT") path { fn := some fn }

/-- Delete (router.go:156). -/
def GoRouter.Delete (r : GoRouter) (path : Str) (fn : MW) : GoRouter :=
  r.bindRoute (str "DELETE") path { fn := some fn }

/-- Patch (router.go:161). -/
def GoRouter.Patch (r : GoRouter) (path : Str) (fn : MW) : GoRouter :=
  r.bindRoute (str "PATCH") path { fn := some fn }

/-- Handle (router.go:166): register a handler object under a route key
whose method field is the empty string. -/
def GoRouter.Handle (r : GoRouter) (path : Str) (h : MW) : GoRouter :=
  match r with
  | .mk bp rs subs nfh mws => .mk bp (routesInsert rs ⟨path, []⟩ { handler := some h }) subs nfh mws

/-- SubRouter (router.go:123): create a child router whose base path is the
parent base path (or nothing for the root parent) followed by the suffix,
append it to the child list, and return updated parent and child. -/
def GoRouter.SubRouter (r : GoRouter) (path : Str) : GoRouter × GoRouter :=
  let basePath := if r.basePath != str "/" then r.basePath else []
  let sub : GoRouter := .mk (basePath ++ path) [] [] none []
  match r with
  | .mk bp rs subs nfh mws => (.mk bp rs (subs ++ [sub]) nfh mws, sub)

/-- slicePath (router.go:256): trim slashes, then split at slashes. -/
def slicePath (path : Str) : List Str :=
  goSplitSlash (goTrimSlash path)

/-- The route path normalization at the top of matches (router.go:205):
strip the first occurrence of the router base path from the route path and
ensure a leading slash. -/
def normRoutePath (basePath routePath : Str) : Str :=
  let rp := goReplaceFirst routePath basePath
  if rp.head? = some '/' then rp else '/' :: rp

/-- The check-parts loop of matches (router.go:235): for each index, a
pattern segment starting with a colon accepts the path segment, any other
pattern segment must equal it literally.  Go indexes the pattern segment
with seg[0], which panics (none) on an empty pattern segment.  The loop is
entered only with lists of equal length; on a ragged tail the remaining
iterations of the Go loop do not exist, so the embedding returns true. -/
def segMatch : List Str → List Str → Option Bool
  | [], _ => some true
  | _ :: _, [] => some true
  | pat :: pats, pth :: pths =>
    match pat with
    | [] => none
    | c :: _ =>
      if c = ':' then segMatch pats pths
      else if pth = pat then segMatch pats pths
      else some false

/-- The extract-pattern-params loop of matches (router.go:247): insert one
map entry per colon segment, mapping the name after the colon to the path
segment at the same index.  As in the check loop, seg[0] on an empty
pattern segment panics (none). -/
def extractParams : List Str → List Str → List (Str × Str) → Option (List (Str × Str))
  | [], _, m => some m
  | _ :: _, [], m => some m
  | pat :: pats, pth :: pths, m =>
    match pat with
    | [] => none
    | c :: nm =>
      if c = ':' then extractParams pats pths (mapInsert m nm pth)
      else extractParams pats pths m

/-- matches (router.go:204): normalize the route path, reject a method
mismatch unless ignoreMethod, then dispatch on the pattern shape: literal
patterns compare trimmed strings, wildcard patterns (the pattern contains a
star anywhere) compare segment counts and capture the tail from the
position of the last pattern segment, named patterns compare counts, run
the check loop and extract params.  none embeds a Go runtime panic. -/
def matchesFn (router : GoRouter) (route : GoRoute) (method path : Str)
    (ignoreMethod : Bool) : Option (Bool × List (Str × Str)) :=
  let routePath := normRoutePath router.basePath route.path
  if !ignoreMethod && route.method != method then some (false, [])
  else
    let wildcard := routePath.contains '*'
    if !wildcard && !routePath.contains ':' then
      some (goTrimSlash routePath == goTrimSlash path, [])
    else
      let pathParts := slicePath path
      let patternParts := slicePath routePath
      if wildcard then
        if pathParts.length < patternParts.length then some (false, [])
        else some (true, [(str "*", goJoinSlash (pathParts.drop (patternParts.length - 1)))])
      else if pathParts.length != patternParts.length then some (false, [])
      else
        match segMatch patternParts pathParts with
        | none => none
        | some false => some (false, [])
        | some true =>
          match extractParams patternParts pathParts [] with
          | none => none
          | some ps => some (true, ps)

/- findMatchingRouter (router.go:176): depth-first search of the child
sub-routers, then the router itself claims the path iff its base path
occurs at index 0 of the path.  The Go function has a value receiver and
returns a pointer to the receiver copy, embedded here as returning the
router value; none is the Go nil result. -/
mutual
def findMatchingRouter : GoRouter → Str → Option GoRouter
  | .mk bp rs subs nfh mws, p =>
    match findMatchingRouterL subs p with
    | some r => some r
    | none => if goHasPre p bp then some (.mk bp rs subs nfh mws) else none

def findMatchingRouterL : List GoRouter → Str → Option GoRouter
  | [], _ => none
  | c :: cs, p =>
    match findMatchingRouter c p with
    | some r => some r
    | none => findMatchingRouterL cs p
end

/-- run (router.go:80): execute the middleware chain in order; after each
function, stop if the request context reports a non-nil error; otherwise
finish with the final handler.  The final handler is optional because
ServeHTTP can produce a nil one (a route whose descriptor has neither
variant); invoking it is the Go nil-call panic, embedded as none. -/
def GoRouter.run (mws : List MW) (last : Option MW) (s : ReqState) : Option ReqState :=
  match mws with
  | [] =>
    match last with
    | some f => some (f s)
    | none => none
  | f :: fs =>
    let s2 := f s
    if s2.halted then some s2 else GoRouter.run fs last s2

/-- The middleware loop of run without the final handler: used to state
where the chain stops.  It executes functions in order and stops early on a
halted context. -/
def runChain (mws : List MW) (s : ReqState) : ReqState :=
  match mws with
  | [] => s
  | f :: fs =>
    let s2 := f s
    if s2.halted then s2 else runChain fs s2

/-- The handler resolution of ServeHTTP (router.go:98): the plain function
variant wins over the handler object variant; both absent leaves the nil
handler. -/
def resolveHandler (ops : GoOps) : Option MW :=
  match ops.fn with
  | some f => some f
  | none => ops.handler

/-- The route-table loop of ServeHTTP (router.go:95): try matches on each
route in turn with ignoreMethod set when the descriptor holds a handler
object; none embeds a panic inside matches, some none an exhausted table,
some (some ...) the first match with its params. -/
def findFirstMatch (rr : GoRouter) (method path : Str) :
    List (GoRoute × GoOps) → Option (Option (GoOps × List (Str × Str)))
  | [] => some none
  | (route, ops) :: rest =>
    match matchesFn rr route method path ops.handler.isSome with
    | none => none
    | some (true, params) => some (some (ops, params))
    | some (false, _) => findFirstMatch rr method path rest

/-- ServeHTTP (router.go:92): compute the effective method, resolve the
owning router, and scan its route table with the base-path-stripped
request path.  On the first match, append the param-binding handler to the
middleware list of the per-dispatch router copy (findMatchingRouter
returned a pointer to a value-receiver copy, so Before mutates only that
copy) and run the chain followed by the resolved handler.  On no match,
write status 404 and invoke the not-found handler of the receiver (the
original outermost router) when registered.  The result pairs the final
request state with the persistent router tree, which dispatch leaves
unchanged; none embeds a Go runtime panic (nil router dereference, a panic
inside matches, or a nil final handler). -/
def GoRouter.ServeHTTP (r : GoRouter) (req : GoRequest) (s : ReqState) :
    Option (ReqState × GoRouter) :=
  let method := getMethod req
  match findMatchingRouter r req.urlPath with
  | none => none
  | some rr =>
    let path := goReplaceFirst req.urlPath rr.basePath
    match findFirstMatch rr method path rr.routes with
    | none => none
    | some (some (ops, params)) =>
      (GoRouter.run (rr.mw ++ [setURLParams params]) (resolveHandler ops) s).map
        (fun s2 => (s2, r))
    | some none =>
      let s1 := writeHeader s 404
      match r.notFoundHandler with
      | some h => some (h s1, r)
      | none => some (s1, r)

/-! Claim-side definitions, written from the wording of the specification
for refinement comparison with the source-side functions above. -/

/-- Claim-side success condition for named-parameter patterns: each pattern
segment starting with a colon accepts the corresponding path segment, each
other pattern segment must equal it literally, and the segment lists must
end together. -/
def specLitOK : List Str → List Str → Bool
  | [], [] => true
  | pat :: pats, pth :: pths => (pat.head? == some ':' || pat == pth) && specLitOK pats pths
  | _, _ => false

/-- Claim-side params for named-parameter patterns: one entry per colon
segment, in pattern order, mapping the name after the colon to the path
segment at the same position. -/
def specParams : List Str → List Str → List (Str × Str)
  | pat :: pats, pth :: pths =>
    if pat.head? == some ':' then (pat.drop 1, pth) :: specParams pats pths
    else specParams pats pths
  | _, _ => []

/-- The parameter names of the colon segments of a pattern, in order. -/
def specParamNames (pats : List Str) : List Str :=
  pats.filterMap (fun p => if p.head? == some ':' then some (p.drop 1) else none)

/-- Routes that cannot make matchesFn or the dispatch abort: the descriptor
has at least one handler variant and no segment of the normalized route
path is empty (so seg[0] in the matcher loops cannot panic). -/
def wfOps (o : GoOps) : Bool := o.fn.isSome || o.handler.isSome

def wfRoute (bp : Str) (rt : GoRoute) : Bool :=
  (slicePath (normRoutePath bp rt.path)).all (fun seg => !seg.isEmpty)

def wellFormedRouter (rr : GoRouter) : Bool :=
  rr.routes.all (fun p => wfOps p.2 && wfRoute rr.basePath p.1)

/-! Concrete fixtures used by witnesses and counterexamples. -/

/-- The root router New("/"), as built in the repository tests. -/
def rootRouter : GoRouter := New []

/-- The fresh request world handed to a dispatch. -/
def blankState : ReqState := {}

/-- Middleware that records the params it can see in the context. -/
def logMw (i : Nat) : MW := fun s => { s with log := s.log ++ [Ev.mwSaw i (Params s)] }

/-- Handler that records the params it can see in the context. -/
def logHandler : MW := fun s => { s with log := s.log ++ [Ev.handlerSaw (Params s)] }

/-- Handler that records a bare marker. -/
def tagHandler (n : Nat) : MW := fun s => { s with log := s.log ++ [Ev.tag n] }

/-- Middleware that logs and then calls the halt primitive. -/
def haltAfterLog : MW := fun t => HaltRequest (logMw 1 t)

/-- Middleware chain with a halting middleware at index 1. -/
def mwsHalt : List MW := [logMw 0, haltAfterLog, logMw 2]

/-- Router with a PATCH route and a POST route on the same path. -/
def routerC3 : GoRouter :=
  .mk (str "/")
    [(⟨str "/x", str "PATCH"⟩, { fn := some (tagHandler 1) }),
     (⟨str "/x", str "POST"⟩, { fn := some (tagHandler 2) })]
    [] none []

/-- POST request with a form-encoded body carrying _method=PATCH. -/
def reqC3 : GoRequest :=
  { method := str "POST", contentType := str "application/x-www-form-urlencoded",
    form := [(str "_method", str "PATCH")], urlPath := str "/x" }

/-- POST request with Content-Type multipart/form-data and _method=patch. -/
def reqC3multipart : GoRequest :=
  { method := str "POST", contentType := str "multipart/form-data",
    form := [(str "_method", str "patch")], urlPath := str "/x" }

/-- Router with one user middleware and a named-parameter route. -/
def routerC4 : GoRouter :=
  .mk (str "/") [(⟨str "/users/:id", str "GET"⟩, { fn := some logHandler })] [] none [logMw 0]

/-- GET request for the named-parameter route of routerC4. -/
def reqC4 : GoRequest := { method := str "GET", urlPath := str "/users/7" }

/-- Sub-router with base path /api, its own not-found handler and one
route. -/
def subC6 : GoRouter :=
  .mk (str "/api") [(⟨str "/z", str "GET"⟩, { fn := some (tagHandler 3) })] []
    (some (tagHandler 200)) []

/-- Root router owning subC6, with a different not-found handler. -/
def routerC6 : GoRouter := .mk (str "/") [] [subC6] (some (tagHandler 100)) []

/-- GET request under the subC6 base path matching none of its routes. -/
def reqC6 : GoRequest := { method := str "GET", urlPath := str "/api/none" }

/-- Router whose base path is not a prefix of the request path below. -/
def routerC7 : GoRouter := New (str "/base")

/-- GET request whose path no base path of routerC7 owns. -/
def reqC7 : GoRequest := { method := str "GET", urlPath := str "/x" }

/-- Well-formed single-route router for the dispatch-completes witness. -/
def routerC7w : GoRouter :=
  .mk (str "/") [(⟨str "/ping", str "GET"⟩, { fn := some (tagHandler 9) })] [] none []

/-- GET request matching the route of routerC7w. -/
def reqC7w : GoRequest := { method := str "GET", urlPath := str "/ping" }

/-- Router with no user middleware and a named-parameter route. -/
def routerC10 : GoRouter :=
  .mk (str "/") [(⟨str "/users/:id", str "GET"⟩, { fn := some logHandler })] [] none []

/-- GET request matching the route of routerC10. -/
def reqC10 : GoRequest := { method := str "GET", urlPath := str "/users/7" }

/-! Infrastructure lemmas about the embedded string functions. -/

theorem str_slash : str "/" = ['/'] := rfl

theorem goSplitSlash_ne_nil (s : Str) : goSplitSlash s ≠ [] := by
  cases s with
  | nil => simp [goSplitSlash]
  | cons c cs =>
    simp only [goSplitSlash]
    cases h : goSplitSlash cs with
    | nil => simp
    | cons p ps => by_cases hc : c = '/' <;> simp [hc]

theorem mem_of_mem_goSplitSlash (s : Str) :
    ∀ seg ∈ goSplitSlash s, ∀ c ∈ seg, c ∈ s := by
  induction s with
  | nil =>
    intro seg hseg c hc
    simp [goSplitSlash] at hseg
    subst hseg
    simp at hc
  | cons a as ih =>
    intro seg hseg c hc
    simp only [goSplitSlash] at hseg
    cases h : goSplitSlash as with
    | nil => exact absurd h (goSplitSlash_ne_nil as)
    | cons p ps =>
      rw [h] at hseg
      by_cases ha : a = '/'
      · simp [ha] at hseg
        rcases hseg with h1 | h1 | h1
        · rw [h1] at hc; simp at hc
        · have hcp : c ∈ p := h1 ▸ hc
          have : c ∈ as := ih p (by rw [h]; exact List.mem_cons_self p ps) c hcp
          exact List.mem_cons_of_mem a this
        · have : c ∈ as := ih seg (by rw [h]; exact List.mem_cons_of_mem p h1) c hc
          exact List.mem_cons_of_mem a this
      · simp [ha] at hseg
        rcases hseg with h1 | h1
        · have hcm : c ∈ a :: p := h1 ▸ hc
          rcases List.mem_cons.mp hcm with h2 | h2
          · rw [h2]; exact List.mem_cons_self a as
          · have : c ∈ as := ih p (by rw [h]; exact List.mem_cons_self p ps) c h2
            exact List.mem_cons_of_mem a this
        · have : c ∈ as := ih seg (by rw [h]; exact List.mem_cons_of_mem p h1) c hc
          exact List.mem_cons_of_mem a this

theorem mem_of_mem_goTrimSlash (s : Str) (c : Char) (h : c ∈ goTrimSlash s) : c ∈ s := by
  simp only [goTrimSlash] at h
  rw [List.mem_reverse] at h
  have h2 := (List.dropWhile_sublist (l := (s.dropWhile (· = '/')).reverse) (· = '/')).mem h
  rw [List.mem_reverse] at h2
  exact (List.dropWhile_sublist (l := s) (· = '/')).mem h2

theorem mem_dropWhileSlash_of_mem (l : Str) (c : Char) (hc : c ≠ '/') (h : c ∈ l) :
    c ∈ l.dropWhile (· = '/') := by
  induction l with
  | nil => simp at h
  | cons a as ih =>
    rw [List.dropWhile_cons]
    by_cases ha : a = '/'
    · simp [ha]
      rcases List.mem_cons.mp h with h1 | h1
      · exact absurd (h1.trans ha) hc
      · have := ih h1
        simpa [ha] using this
    · simp [ha]
      exact List.mem_cons.mp h

theorem mem_goTrimSlash_of_mem (s : Str) (c : Char) (hc : c ≠ '/') (h : c ∈ s) :
    c ∈ goTrimSlash s := by
  simp only [goTrimSlash]
  rw [List.mem_reverse]
  apply mem_dropWhileSlash_of_mem _ _ hc
  rw [List.mem_reverse]
  exact mem_dropWhileSlash_of_mem _ _ hc h

theorem goReplaceFirst_root (rest : Str) : goReplaceFirst ('/' :: rest) (str "/") = rest := by
  rw [str_slash]
  simp [goReplaceFirst, replaceFirstAux, List.isPrefixOf]

theorem normRoutePath_root (rest : Str) :
    normRoutePath (str "/") ('/' :: rest) = if rest.head? = some '/' then rest else '/' :: rest := by
  simp only [normRoutePath, goReplaceFirst_root]

theorem goTrimSlash_cons_slash (t : Str) : goTrimSlash ('/' :: t) = goTrimSlash t := by
  simp [goTrimSlash, List.dropWhile_cons]

theorem goTrimSlash_norm_root (rest : Str) :
    goTrimSlash (normRoutePath (str "/") ('/' :: rest)) = goTrimSlash ('/' :: rest) := by
  rw [normRoutePath_root]
  split
  · rw [goTrimSlash_cons_slash]
  · rfl

theorem slicePath_norm_root (rest : Str) :
    slicePath (normRoutePath (str "/") ('/' :: rest)) = slicePath ('/' :: rest) := by
  simp [slicePath, goTrimSlash_norm_root]

theorem contains_norm_root (rest : Str) (c : Char) (hc : c ≠ '/') :
    (normRoutePath (str "/") ('/' :: rest)).contains c = ('/' :: rest).contains c := by
  rw [normRoutePath_root]
  split
  · simp [List.contains_cons, hc]
  · rfl

theorem contains_eq_true_of_mem (l : Str) (c : Char) (h : c ∈ l) : l.contains c = true :=
  List.elem_iff.mpr h

theorem goSplitSlash_singleton (t seg : Str) (h : goSplitSlash t = [seg]) : t = seg := by
  induction t generalizing seg with
  | nil =>
    simp [goSplitSlash] at h
    simp [h]
  | cons c cs ih =>
    simp only [goSplitSlash] at h
    cases h2 : goSplitSlash cs with
    | nil => exact absurd h2 (goSplitSlash_ne_nil cs)
    | cons p ps =>
      rw [h2] at h
      by_cases hc : c = '/'
      · simp [hc] at h
      · simp [hc] at h
        obtain ⟨h3, h4⟩ := h
        rw [h4] at h2
        have h5 := ih p h2
        rw [← h3, h5]

/-! Lemmas relating the matcher loops to the claim-side functions. -/

theorem specParamNames_cons_colon (nm : Str) (pats : List Str) :
    specParamNames ((':' :: nm) :: pats) = nm :: specParamNames pats := by
  simp [specParamNames]

theorem specParamNames_cons_other (c : Char) (nm : Str) (pats : List Str) (hc : c ≠ ':') :
    specParamNames ((c :: nm) :: pats) = specParamNames pats := by
  simp [specParamNames, hc]

theorem segMatch_eq_specLitOK (pats : List Str) :
    ∀ (pths : List Str), (∀ seg ∈ pats, seg ≠ []) → pats.length = pths.length →
    segMatch pats pths = some (specLitOK pats pths) := by
  induction pats with
  | nil =>
    intro pths _ hlen
    cases pths with
    | nil => rfl
    | cons _ _ => simp at hlen
  | cons pat pats ih =>
    intro pths hne hlen
    cases pths with
    | nil => simp at hlen
    | cons pth pths =>
      have hpat : pat ≠ [] := hne pat (List.mem_cons_self _ _)
      cases pat with
      | nil => exact absurd rfl hpat
      | cons c rest =>
        have hne2 : ∀ seg ∈ pats, seg ≠ [] := fun seg hs => hne seg (List.mem_cons_of_mem _ hs)
        have hlen2 : pats.length = pths.length := by simpa using hlen
        by_cases hc : c = ':'
        · simp only [segMatch, specLitOK, hc]
          rw [ih pths hne2 hlen2]
          simp
        · simp only [segMatch, specLitOK]
          rw [if_neg hc]
          by_cases heq : pth = c :: rest
          · rw [if_pos heq, ih pths hne2 hlen2]
            simp [heq, hc]
          · rw [if_neg heq]
            have h1 : ((c :: rest).head? == some ':') = false := by
              simp [hc]
            have h2 : (pth == c :: rest) = false := by
              simp [heq]
            simp [h1, h2]
            intro h
            rcases h with h | h
            · exact absurd h hc
            · exact absurd h.symm heq

theorem mapInsert_eq_append (m : List (Str × Str)) (k v : Str)
    (hk : ∀ q ∈ m, q.1 ≠ k) : mapInsert m k v = m ++ [(k, v)] := by
  induction m with
  | nil => rfl
  | cons q rest ih =>
    obtain ⟨k2, v2⟩ := q
    have h1 : k2 ≠ k := hk (k2, v2) (List.mem_cons_self _ _)
    simp only [mapInsert]
    rw [if_neg h1]
    rw [ih (fun q hq => hk q (List.mem_cons_of_mem _ hq))]
    simp

theorem extractParams_eq_specParams (pats : List Str) :
    ∀ (pths : List Str) (acc : List (Str × Str)), (∀ seg ∈ pats, seg ≠ []) →
    pats.length = pths.length → (specParamNames pats).Nodup →
    (∀ nm ∈ specParamNames pats, ∀ q ∈ acc, q.1 ≠ nm) →
    extractParams pats pths acc = some (acc ++ specParams pats pths) := by
  induction pats with
  | nil =>
    intro pths acc _ hlen _ _
    cases pths with
    | nil => simp [extractParams, specParams]
    | cons _ _ => simp at hlen
  | cons pat pats ih =>
    intro pths acc hne hlen hnodup hfresh
    cases pths with
    | nil => simp at hlen
    | cons pth pths =>
      have hpat : pat ≠ [] := hne pat (List.mem_cons_self _ _)
      cases pat with
      | nil => exact absurd rfl hpat
      | cons c nm =>
        have hne2 : ∀ seg ∈ pats, seg ≠ [] := fun seg hs => hne seg (List.mem_cons_of_mem _ hs)
        have hlen2 : pats.length = pths.length := by simpa using hlen
        by_cases hc : c = ':'
        · subst hc
          rw [specParamNames_cons_colon] at hnodup hfresh
          have hnm : ∀ q ∈ acc, q.1 ≠ nm :=
            hfresh nm (List.mem_cons_self _ _)
          have hnodup2 : (specParamNames pats).Nodup := hnodup.of_cons
          have hnotmem : nm ∉ specParamNames pats := by
            intro hmem
            exact (List.nodup_cons.mp hnodup).1 hmem
          simp only [extractParams, specParams, if_pos rfl]
          rw [mapInsert_eq_append acc nm pth hnm]
          rw [ih pths (acc ++ [(nm, pth)]) hne2 hlen2 hnodup2 ?fresh]
          · simp
          case fresh =>
            intro nm2 hnm2 q hq
            rcases List.mem_append.mp hq with h1 | h1
            · exact hfresh nm2 (List.mem_cons_of_mem _ hnm2) q h1
            · have : q = (nm, pth) := by simpa using h1
              rw [this]
              intro hEq
              have h3 : nm = nm2 := hEq
              rw [h3] at hnotmem
              exact hnotmem hnm2
        · rw [specParamNames_cons_other c nm pats hc] at hnodup hfresh
          have hhead : ((c :: nm).head? == some ':') = false := by simp [hc]
          simp only [extractParams, specParams, if_neg hc, hhead, Bool.false_eq_true,
            if_false]
          exact ih pths acc hne2 hlen2 hnodup hfresh

/-! Lemmas about the middleware chain runner. -/

theorem runChain_cons (f : MW) (fs : List MW) (s : ReqState) :
    runChain (f :: fs) s = if (f s).halted then f s else runChain fs (f s) := rfl

theorem run_cons (f : MW) (fs : List MW) (last : Option MW) (s : ReqState) :
    GoRouter.run (f :: fs) last s =
      if (f s).halted then some (f s) else GoRouter.run fs last (f s) := rfl

theorem run_isSome (mws : List MW) (f : MW) :
    ∀ s : ReqState, (GoRouter.run mws (some f) s).isSome = true := by
  induction mws with
  | nil => intro s; rfl
  | cons g gs ih =>
    intro s
    rw [run_cons]
    by_cases h : (g s).halted
    · simp [h]
    · simp [h, ih]

theorem runChain_append_not_halted (mws : List MW) (f : MW) :
    ∀ s : ReqState, (runChain (mws ++ [f]) s).halted = false →
    runChain (mws ++ [f]) s = f (runChain mws s) := by
  induction mws with
  | nil =>
    intro s _
    simp only [List.nil_append, runChain_cons, runChain]
    split <;> rfl
  | cons g gs ih =>
    intro s h
    simp only [List.cons_append, runChain_cons] at h ⊢
    by_cases hg : (g s).halted = true
    · rw [if_pos hg] at h
      rw [hg] at h
      simp at h
    · have hg2 : (g s).halted = false := by simpa using hg
      rw [hg2] at h ⊢
      simp only [Bool.false_eq_true, if_false] at h ⊢
      exact ih (g s) h

/-! Lemmas showing the matcher and dispatch cannot abort on well-formed
route tables, and that dispatch returns the router tree unchanged. -/

theorem segMatch_isSome (pats : List Str) :
    ∀ pths : List Str, (∀ seg ∈ pats, seg ≠ []) → (segMatch pats pths).isSome = true := by
  induction pats with
  | nil => intro pths _; rfl
  | cons pat pats ih =>
    intro pths hne
    cases pths with
    | nil => rfl
    | cons pth pths =>
      have hpat : pat ≠ [] := hne pat (List.mem_cons_self _ _)
      cases pat with
      | nil => exact absurd rfl hpat
      | cons c rest =>
        have hne2 : ∀ seg ∈ pats, seg ≠ [] := fun seg hs => hne seg (List.mem_cons_of_mem _ hs)
        simp only [segMatch]
        by_cases hc : c = ':'
        · simp [hc, ih pths hne2]
        · by_cases heq : pth = c :: rest
          · simp [hc, heq, ih pths hne2]
          · simp [hc, heq]

theorem extractParams_isSome (pats : List Str) :
    ∀ (pths : List Str) (acc : List (Str × Str)), (∀ seg ∈ pats, seg ≠ []) →
    (extractParams pats pths acc).isSome = true := by
  induction pats with
  | nil => intro pths acc _; rfl
  | cons pat pats ih =>
    intro pths acc hne
    cases pths with
    | nil => rfl
    | cons pth pths =>
      have hpat : pat ≠ [] := hne pat (List.mem_cons_self _ _)
      cases pat with
      | nil => exact absurd rfl hpat
      | cons c rest =>
        have hne2 : ∀ seg ∈ pats, seg ≠ [] := fun seg hs => hne seg (List.mem_cons_of_mem _ hs)
        simp only [extractParams]
        by_cases hc : c = ':' <;> simp [hc, ih pths _ hne2]

theorem matchesFn_isSome (rr : GoRouter) (rt : GoRoute) (m path : Str) (ig : Bool)
    (hwf : wfRoute rr.basePath rt = true) :
    (matchesFn rr rt m path ig).isSome = true := by
  have hne : ∀ seg ∈ slicePath (normRoutePath rr.basePath rt.path), seg ≠ [] := by
    intro seg hs
    have := (List.all_eq_true.mp hwf) seg hs
    simpa using this
  simp only [matchesFn]
  split
  · rfl
  split
  · rfl
  split
  · split
    · rfl
    · rfl
  split
  · rfl
  · obtain ⟨b, hb⟩ := Option.isSome_iff_exists.mp (segMatch_isSome _ (slicePath path) hne)
    rw [hb]
    cases b with
    | false => rfl
    | true =>
      obtain ⟨ps, hp⟩ :=
        Option.isSome_iff_exists.mp (extractParams_isSome _ (slicePath path) [] hne)
      rw [hp]
      rfl

theorem findFirstMatch_isSome (rr : GoRouter) (m path : Str) (l : List (GoRoute × GoOps))
    (hwf : ∀ p ∈ l, wfRoute rr.basePath p.1 = true) :
    (findFirstMatch rr m path l).isSome = true := by
  induction l with
  | nil => rfl
  | cons p rest ih =>
    obtain ⟨rt, ops⟩ := p
    simp only [findFirstMatch]
    cases hm : matchesFn rr rt m path ops.handler.isSome with
    | none =>
      have := matchesFn_isSome rr rt m path ops.handler.isSome
        (hwf (rt, ops) (List.mem_cons_self _ _))
      rw [hm] at this
      simp at this
    | some pr =>
      obtain ⟨ok, params⟩ := pr
      cases ok with
      | true => simp
      | false =>
        simp only
        exact ih (fun q hq => hwf q (List.mem_cons_of_mem _ hq))

theorem serveHTTP_snd (r : GoRouter) (req : GoRequest) (s : ReqState)
    (out : ReqState × GoRouter) (h : GoRouter.ServeHTTP r req s = some out) : out.2 = r := by
  cases hf : findMatchingRouter r req.urlPath with
  | none =>
    simp only [GoRouter.ServeHTTP, hf] at h
    exact Option.noConfusion h
  | some rr =>
    cases hm : findFirstMatch rr (getMethod req) (goReplaceFirst req.urlPath rr.basePath)
        rr.routes with
    | none =>
      simp only [GoRouter.ServeHTTP, hf, hm] at h
      exact Option.noConfusion h
    | some o =>
      cases o with
      | some pr =>
        obtain ⟨ops, params⟩ := pr
        simp only [GoRouter.ServeHTTP, hf, hm, Option.map_eq_some'] at h
        obtain ⟨s2, _, hout⟩ := h
        rw [← hout]
      | none =>
        cases hn : r.notFoundHandler with
        | some nfh =>
          simp only [GoRouter.ServeHTTP, hf, hm, hn, Option.some.injEq] at h
          rw [← h]
        | none =>
          simp only [GoRouter.ServeHTTP, hf, hm, hn, Option.some.injEq] at h
          rw [← h]

/-! Reduction of matchesFn at the root router: the base-path stripping and
the leading-slash normalization cancel on patterns that start with a
slash, and a method equal to the route method passes the method check. -/

theorem rootRouter_basePath : rootRouter.basePath = str "/" := rfl

theorem matchesFn_root (rest path m : Str) :
    matchesFn rootRouter ⟨'/' :: rest, m⟩ m path false =
      if !('/' :: rest).contains '*' && !('/' :: rest).contains ':' then
        some (goTrimSlash ('/' :: rest) == goTrimSlash path, [])
      else if ('/' :: rest).contains '*' then
        if (slicePath path).length < (slicePath ('/' :: rest)).length then some (false, [])
        else some (true, [(str "*",
          goJoinSlash ((slicePath path).drop ((slicePath ('/' :: rest)).length - 1)))])
      else if (slicePath path).length != (slicePath ('/' :: rest)).length then some (false, [])
      else
        match segMatch (slicePath ('/' :: rest)) (slicePath path) with
        | none => none
        | some false => some (false, [])
        | some true =>
          match extractParams (slicePath ('/' :: rest)) (slicePath path) [] with
          | none => none
          | some ps => some (true, ps) := by
  simp only [matchesFn, rootRouter_basePath, bne_self_eq_false, Bool.and_false,
    Bool.not_false, Bool.false_eq_true, if_false,
    contains_norm_root rest '*' (by decide), contains_norm_root rest ':' (by decide),
    goTrimSlash_norm_root, slicePath_norm_root]

/-! Claim C1. -/

/-- C1 (counterexample): the claim states that for a pattern containing a
star segment the params key star holds the path segments from the position
of the wildcard through the end.  For the pattern /a/*/b (star segment at
position 1) and the path /a/x/y the claim demands the capture x/y, but
matchesFn captures from the position of the last pattern segment and
returns y. -/
theorem c1_counterexample :
    matchesFn rootRouter ⟨str "/a/*/b", str "GET"⟩ (str "GET") (str "/a/x/y") false =
      some (true, [(str "*", str "y")]) ∧ str "y" ≠ str "x/y" := by
  decide

/-- C1 (amended): for every pattern that starts with a slash and contains a
star segment, and every path, matchesFn on the root router returns false
iff the trimmed path has fewer slash-delimited segments than the trimmed
pattern, and otherwise returns true with the single params key star bound
to the path segments from the position of the last pattern segment (the
position of the wildcard whenever the wildcard is the trailing segment)
through the end, joined by slashes. -/
theorem c1_wildcard_matches (pattern path m : Str) (hs : pattern.head? = some '/')
    (hw : str "*" ∈ slicePath pattern) :
    matchesFn rootRouter ⟨pattern, m⟩ m path false =
      if (slicePath path).length < (slicePath pattern).length then some (false, [])
      else some (true, [(str "*",
        goJoinSlash ((slicePath path).drop ((slicePath pattern).length - 1)))]) := by
  obtain ⟨c, rest, rfl⟩ : ∃ c rest, pattern = c :: rest := by
    cases pattern with
    | nil => simp at hs
    | cons c rest => exact ⟨c, rest, rfl⟩
  have hc : c = '/' := by simpa using hs
  subst hc
  have hstar : ('/' :: rest).contains '*' = true := by
    apply contains_eq_true_of_mem
    apply mem_of_mem_goTrimSlash
    simp only [slicePath] at hw
    exact mem_of_mem_goSplitSlash _ (str "*") hw '*' (by decide)
  rw [matchesFn_root]
  rw [hstar]
  simp

/-- C1 (witness): the wildcard pattern /users/* does not match /users and
matches /users/a capturing a under the star key. -/
theorem c1_wildcard_matches_witness :
    matchesFn rootRouter ⟨str "/users/*", str "GET"⟩ (str "GET") (str "/users/a") false =
      some (true, [(str "*", str "a")]) ∧
    matchesFn rootRouter ⟨str "/users/*", str "GET"⟩ (str "GET") (str "/users") false =
      some (false, []) := by
  constructor
  · have h := c1_wildcard_matches (str "/users/*") (str "/users/a") (str "GET")
      (by decide) (by decide)
    rw [h]
    decide
  · have h := c1_wildcard_matches (str "/users/*") (str "/users") (str "GET")
      (by decide) (by decide)
    rw [h]
    decide

/-! Claim C2. -/

/-- C2 (counterexample): the claim states that a named-parameter pattern
succeeds only when every colon segment corresponds to a non-empty path
segment.  The pattern /a/:b/c applied to the path /a//c (empty middle
segment) nevertheless succeeds, capturing the empty string under b. -/
theorem c2_counterexample :
    matchesFn rootRouter ⟨str "/a/:b/c", str "GET"⟩ (str "GET") (str "/a//c") false =
      some (true, [(str "b", str "")]) ∧ str "" = [] := by
  decide

/-- C2 (amended): for every pattern that starts with a slash, contains a
colon, contains no star, has no empty trimmed segment, and has pairwise
distinct parameter names, and for every path, matchesFn on the root router
succeeds iff the trimmed pattern and path have the same number of
slash-delimited segments and every pattern segment not starting with a
colon equals the corresponding path segment literally; a colon segment
accepts any path segment, including the empty one.  On success the params
map holds exactly one entry per colon segment, in pattern order, mapping
the name after the colon to the corresponding path segment; a segment
count mismatch always yields false. -/
theorem c2_named_matches (pattern path m : Str) (hs : pattern.head? = some '/')
    (hstar : pattern.contains '*' = false) (hcolon : pattern.contains ':' = true)
    (hne : ∀ seg ∈ slicePath pattern, seg ≠ [])
    (hnodup : (specParamNames (slicePath pattern)).Nodup) :
    matchesFn rootRouter ⟨pattern, m⟩ m path false =
      if (slicePath path).length = (slicePath pattern).length then
        (if specLitOK (slicePath pattern) (slicePath path) then
          some (true, specParams (slicePath pattern) (slicePath path))
         else some (false, []))
      else some (false, []) := by
  obtain ⟨c, rest, rfl⟩ : ∃ c rest, pattern = c :: rest := by
    cases pattern with
    | nil => simp at hs
    | cons c rest => exact ⟨c, rest, rfl⟩
  have hc : c = '/' := by simpa using hs
  subst hc
  rw [matchesFn_root]
  rw [hstar, hcolon]
  simp only [Bool.not_false, Bool.not_true, Bool.false_and, Bool.and_false,
    Bool.false_eq_true, if_false]
  by_cases hlen : (slicePath path).length = (slicePath ('/' :: rest)).length
  · have hbne : ((slicePath path).length != (slicePath ('/' :: rest)).length) = false := by
      simp [hlen]
    rw [hbne]
    simp only [Bool.false_eq_true, if_false, if_pos hlen]
    rw [segMatch_eq_specLitOK (slicePath ('/' :: rest)) (slicePath path) hne hlen.symm]
    by_cases hok : specLitOK (slicePath ('/' :: rest)) (slicePath path) = true
    · rw [hok]
      simp only [if_pos hok]
      rw [extractParams_eq_specParams (slicePath ('/' :: rest)) (slicePath path) [] hne
        hlen.symm hnodup (by intro nm _ q hq; simp at hq)]
      simp
    · have hok2 : specLitOK (slicePath ('/' :: rest)) (slicePath path) = false := by
        simpa using hok
      rw [hok2]
      simp [hok2]
  · have hbne : ((slicePath path).length != (slicePath ('/' :: rest)).length) = true := by
      simp [hlen]
    rw [hbne]
    simp [hlen]

/-- C2 (witness): /users/:name matches /users/123 with name bound to 123
and does not match /users/123/extra. -/
theorem c2_named_matches_witness :
    matchesFn rootRouter ⟨str "/users/:name", str "GET"⟩ (str "GET") (str "/users/123") false =
      some (true, [(str "name", str "123")]) ∧
    matchesFn rootRouter ⟨str "/users/:name", str "GET"⟩ (str "GET")
      (str "/users/123/extra") false = some (false, []) := by
  constructor
  · have h := c2_named_matches (str "/users/:name") (str "/users/123") (str "GET")
      (by decide) (by decide) (by decide) (by decide) (by decide)
    rw [h]
    decide
  · have h := c2_named_matches (str "/users/:name") (str "/users/123/extra") (str "GET")
      (by decide) (by decide) (by decide) (by decide) (by decide)
    rw [h]
    decide

/-! Claim C8. -/

/-- C8 (counterexample): the claim states that an empty trimmed path
matches only the root pattern.  The wildcard pattern /* is not the root
pattern, yet it matches the path / (empty trimmed form), capturing the
empty string under the star key. -/
theorem c8_counterexample :
    goTrimSlash (str "/") = [] ∧ str "/*" ≠ str "/" ∧
    matchesFn rootRouter ⟨str "/*", str "GET"⟩ (str "GET") (str "/") false =
      some (true, [(str "*", [])]) := by
  decide

/-- C8 (amended): a path whose slash-trimmed form is empty slices to the
single empty segment, and for every pattern starting with a slash,
matchesFn on the root router matches it as follows: a wildcard pattern
matches iff it has exactly one trimmed segment (capturing the empty string
under the star key); otherwise a colon pattern matches iff it has exactly
one trimmed segment and that segment starts with the colon (capturing the
empty string under the name); otherwise a literal pattern matches iff its
trimmed form is also empty, that is, the root pattern shape.  So the root
pattern is not the only shape matching the empty trimmed path. -/
theorem c8_empty_path_matches (pattern path m : Str) (hs : pattern.head? = some '/')
    (hpath : goTrimSlash path = []) :
    slicePath path = [[]] ∧
    matchesFn rootRouter ⟨pattern, m⟩ m path false =
      (if pattern.contains '*' then
        (if (slicePath pattern).length = 1 then some (true, [(str "*", [])])
         else some (false, []))
      else if pattern.contains ':' then
        (match slicePath pattern with
         | [seg] =>
           if seg.head? = some ':' then some (true, [(seg.drop 1, [])])
           else some (false, [])
         | _ => some (false, []))
      else some (goTrimSlash pattern == [], [])) := by
  obtain ⟨c, rest, rfl⟩ : ∃ c rest, pattern = c :: rest := by
    cases pattern with
    | nil => simp at hs
    | cons c rest => exact ⟨c, rest, rfl⟩
  have hc : c = '/' := by simpa using hs
  subst hc
  have hsp : slicePath path = [[]] := by
    simp [slicePath, hpath, goSplitSlash]
  refine ⟨hsp, ?_⟩
  rw [matchesFn_root, hsp]
  by_cases hstar : ('/' :: rest).contains '*' = true
  · rw [hstar]
    simp only [Bool.not_true, Bool.false_and, Bool.false_eq_true, if_false, if_true,
      List.length_cons, List.length_nil]
    have hpos : 1 ≤ (slicePath ('/' :: rest)).length := by
      cases h : slicePath ('/' :: rest) with
      | nil => exact absurd h (by simp [slicePath]; exact goSplitSlash_ne_nil _)
      | cons a l => simp
    by_cases hone : (slicePath ('/' :: rest)).length = 1
    · rw [if_pos hone]
      have : ¬ (0 + 1 < (slicePath ('/' :: rest)).length) := by omega
      rw [if_neg this, hone]
      simp [goJoinSlash]
    · rw [if_neg hone]
      have : 0 + 1 < (slicePath ('/' :: rest)).length := by omega
      rw [if_pos this]
  · have hstar2 : ('/' :: rest).contains '*' = false := by simpa using hstar
    rw [hstar2]
    by_cases hcolon : ('/' :: rest).contains ':' = true
    · rw [hcolon]
      simp only [Bool.not_false, Bool.not_true, Bool.true_and, Bool.and_false,
        Bool.false_eq_true, if_false]
      have hmem : ':' ∈ goTrimSlash ('/' :: rest) :=
        mem_goTrimSlash_of_mem _ _ (by decide) (List.elem_iff.mp hcolon)
      cases h : slicePath ('/' :: rest) with
      | nil => exact absurd h (by simp [slicePath]; exact goSplitSlash_ne_nil _)
      | cons seg segs =>
        cases segs with
        | nil =>
          have hseg : goTrimSlash ('/' :: rest) = seg := by
            apply goSplitSlash_singleton
            simpa [slicePath] using h
          have hsegne : seg ≠ [] := by
            intro hnil
            rw [hseg, hnil] at hmem
            simp at hmem
          cases seg with
          | nil => exact absurd rfl hsegne
          | cons sc srest =>
            have hbne : (([([] : Str)]).length != ([sc :: srest]).length) = false := by simp
            rw [hbne]
            simp only [Bool.false_eq_true, if_false]
            by_cases hsc : sc = ':'
            · rw [hsc]
              simp [segMatch, extractParams, mapInsert]
            · have h1 : segMatch [sc :: srest] [[]] = some false := by
                simp [segMatch, hsc]
              rw [h1]
              simp [hsc]
        | cons s2 ss =>
          have hbne : (([([] : Str)]).length != ((seg :: s2 :: ss)).length) = true := by
            simp
          rw [hbne]
          simp
    · have hcolon2 : ('/' :: rest).contains ':' = false := by simpa using hcolon
      rw [hcolon2]
      simp only [Bool.false_eq_true, if_false]
      rw [hpath]
      cases goTrimSlash ('/' :: rest) <;> simp

/-- C8 (witness): the root pattern / matches the empty trimmed path, the
single-segment wildcard pattern /* matches it too, and a two-segment
pattern /users/:id does not. -/
theorem c8_empty_path_matches_witness :
    (slicePath (str "/") = [[]] ∧
      matchesFn rootRouter ⟨str "/", str "GET"⟩ (str "GET") (str "/") false =
        some (true, [])) ∧
    matchesFn rootRouter ⟨str "/*", str "GET"⟩ (str "GET") (str "/") false =
      some (true, [(str "*", [])]) ∧
    matchesFn rootRouter ⟨str "/users/:id", str "GET"⟩ (str "GET") (str "/") false =
      some (false, []) := by
  refine ⟨?_, ?_, ?_⟩
  · have h := c8_empty_path_matches (str "/") (str "/") (str "GET") (by decide) (by decide)
    obtain ⟨h1, h2⟩ := h
    refine ⟨h1, ?_⟩
    rw [h2]
    decide
  · have h := c8_empty_path_matches (str "/*") (str "/") (str "GET") (by decide) (by decide)
    rw [h.2]
    decide
  · have h := c8_empty_path_matches (str "/users/:id") (str "/") (str "GET")
      (by decide) (by decide)
    rw [h.2]
    decide

/-! Claim C3. -/

/-- C3 (counterexample): the claim states that a POST whose content type is
application/x-www-form-urlencoded with form field _method=PATCH dispatches
to the PATCH handler.  getMethod only recognizes the content types
multipart/form-data and text/html, so this request keeps the POST method
and routerC3 (a PATCH route logging tag 1 and a POST route logging tag 2
on the same path) dispatches to the POST handler. -/
theorem c3_counterexample :
    getMethod reqC3 = str "POST" ∧
    (GoRouter.ServeHTTP routerC3 reqC3 blankState).map Prod.fst =
      some { ctxParams := some [], halted := false, status := none, log := [Ev.tag 2] } := by
  constructor
  · decide
  · simp +decide [GoRouter.ServeHTTP, findMatchingRouter, findMatchingRouterL, routerC3,
      reqC3, findFirstMatch, matchesFn, GoRouter.run, blankState, tagHandler, setURLParams]

/-- C3 (amended): the method override applies exactly when the Content-Type
header is multipart/form-data or text/html: then a non-empty parsed form
field _method yields its upper-cased value as the effective method and an
absent or empty field keeps the transport method; for every other content
type (including application/x-www-form-urlencoded) the transport method is
used and the form is not consulted. -/
theorem c3_method_override :
    (∀ req : GoRequest,
      (req.contentType = str "multipart/form-data" ∨ req.contentType = str "text/html") →
      formValue req (str "_method") ≠ [] →
      getMethod req = goToUpper (formValue req (str "_method"))) ∧
    (∀ req : GoRequest,
      (req.contentType = str "multipart/form-data" ∨ req.contentType = str "text/html") →
      formValue req (str "_method") = [] →
      getMethod req = req.method) ∧
    (∀ req : GoRequest,
      req.contentType ≠ str "multipart/form-data" → req.contentType ≠ str "text/html" →
      getMethod req = req.method) := by
  refine ⟨?_, ?_, ?_⟩
  · intro req hct hm
    simp only [getMethod]
    rcases hct with h | h <;> rw [h] <;> simp [hm]
  · intro req hct hm
    simp only [getMethod]
    rcases hct with h | h <;> rw [h] <;> simp [hm]
  · intro req h1 h2
    simp only [getMethod]
    have hc1 : (req.contentType == str "multipart/form-data") = false := by simp [h1]
    have hc2 : (req.contentType == str "text/html") = false := by simp [h2]
    rw [hc1, hc2]
    simp

/-- C3 (witness): a POST with Content-Type multipart/form-data and form
field _method=patch gets the effective method PATCH, and the urlencoded
request of the counterexample keeps POST. -/
theorem c3_method_override_witness :
    getMethod reqC3multipart = str "PATCH" ∧ getMethod reqC3 = str "POST" := by
  constructor
  · have h := c3_method_override.1 reqC3multipart (Or.inl (by decide)) (by decide)
    rw [h]
    decide
  · have h := c3_method_override.2.2 reqC3 (by decide) (by decide)
    rw [h]
    decide

/-! Claim C4. -/

/-- C4 (counterexample): the claim states that the param-binding step runs
before every user middleware, so Params is populated inside user
middleware.  Dispatching GET /users/7 on routerC4 (one user middleware
that logs the params it sees, route /users/:id whose handler logs the
params it sees), the user middleware logs the empty map and only the
final handler sees id=7: the binding step was appended after the user
middleware, not prepended. -/
theorem c4_counterexample :
    (GoRouter.ServeHTTP routerC4 reqC4 blankState).map Prod.fst =
      some { ctxParams := some [(str "id", str "7")], halted := false, status := none,
             log := [Ev.mwSaw 0 [], Ev.handlerSaw [(str "id", str "7")]] } ∧
    ([] : List (Str × Str)) ≠ [(str "id", str "7")] := by
  constructor
  · simp +decide [GoRouter.ServeHTTP, findMatchingRouter, findMatchingRouterL, routerC4,
      reqC4, findFirstMatch, matchesFn, GoRouter.run, blankState, logHandler, logMw,
      setURLParams, Params]
  · decide

/-- C4 (amended): for every matched dispatch the chain that runs is the
user middleware list of the resolved router followed by the synthetic
param-binding step, appended last (not prepended): so the extracted params
are bound into the context after all user middleware have run and are
visible to the final handler (whenever the chain was not halted), but not
to the user middleware. -/
theorem c4_param_binding_appended :
    (∀ (r : GoRouter) (req : GoRequest) (s : ReqState) (rr : GoRouter) (ops : GoOps)
        (params : List (Str × Str)),
      findMatchingRouter r req.urlPath = some rr →
      findFirstMatch rr (getMethod req) (goReplaceFirst req.urlPath rr.basePath) rr.routes =
        some (some (ops, params)) →
      GoRouter.ServeHTTP r req s =
        (GoRouter.run (rr.mw ++ [setURLParams params]) (resolveHandler ops) s).map
          (fun s2 => (s2, r))) ∧
    (∀ (mws : List MW) (ps : List (Str × Str)) (s : ReqState),
      (runChain (mws ++ [setURLParams ps]) s).halted = false →
      Params (runChain (mws ++ [setURLParams ps]) s) = ps) := by
  constructor
  · intro r req s rr ops params hf hm
    simp only [GoRouter.ServeHTTP, hf, hm]
  · intro mws ps s h
    rw [runChain_append_not_halted mws (setURLParams ps) s h]
    simp [setURLParams, Params]

/-- C4 (witness): the matched dispatch of routerC4 runs the chain
mw ++ bind with the binding last, and the handler entered after the
unhalted chain sees id=7. -/
theorem c4_param_binding_appended_witness :
    GoRouter.ServeHTTP routerC4 reqC4 blankState =
      (GoRouter.run (routerC4.mw ++ [setURLParams [(str "id", str "7")]])
        (resolveHandler { fn := some logHandler }) blankState).map
        (fun s2 => (s2, routerC4)) ∧
    Params (runChain ([logMw 0] ++ [setURLParams [(str "id", str "7")]]) blankState) =
      [(str "id", str "7")] := by
  constructor
  · exact c4_param_binding_appended.1 routerC4 reqC4 blankState routerC4
      { fn := some logHandler } [(str "id", str "7")]
      (by simp +decide [findMatchingRouter, findMatchingRouterL, routerC4, reqC4])
      (by rfl)
  · exact c4_param_binding_appended.2 [logMw 0] [(str "id", str "7")] blankState (by decide)

/-! Claim C5. -/

/-- C5: in the chain runner of dispatch, if the middleware at index i ends
by calling the halt primitive HaltRequest (which leaves the rebound request
context cancelled), the run equals the run of the truncated chain up to
and including index i with no final handler applied: no middleware at any
larger index runs and the main handler never runs.  And when no prefix of
the chain leaves the context halted, the run applies the final handler
exactly once, to the state produced by the whole middleware chain. -/
theorem c5_halt_protocol :
    (∀ (mws : List MW) (f : MW) (s : ReqState) (i : Nat) (h : i < mws.length) (g : MW),
      mws.get ⟨i, h⟩ = (fun t => HaltRequest (g t)) →
      GoRouter.run mws (some f) s = some (runChain (mws.take (i + 1)) s)) ∧
    (∀ (mws : List MW) (f : MW) (s : ReqState),
      (∀ k, k < mws.length → (runChain (mws.take (k + 1)) s).halted = false) →
      GoRouter.run mws (some f) s = some (f (runChain mws s))) := by
  constructor
  · intro mws f s i
    induction i generalizing mws s with
    | zero =>
      intro h g hg
      cases mws with
      | nil => simp at h
      | cons m rest =>
        have hm : m = fun t => HaltRequest (g t) := hg
        have hh : (m s).halted = true := by rw [hm]; rfl
        rw [run_cons, if_pos hh]
        simp [runChain_cons, hh]
    | succ i ih =>
      intro h g hg
      cases mws with
      | nil => simp at h
      | cons m rest =>
        by_cases hm : (m s).halted = true
        · rw [run_cons, if_pos hm]
          simp [List.take_succ_cons, runChain_cons, hm]
        · have hm2 : (m s).halted = false := by simpa using hm
          have hlen : i < rest.length := by simpa using h
          have hg2 : rest.get ⟨i, hlen⟩ = fun t => HaltRequest (g t) := by
            simpa using hg
          rw [run_cons, if_neg hm]
          rw [ih rest (m s) hlen g hg2]
          simp [List.take_succ_cons, runChain_cons, hm2]
  · intro mws f s
    induction mws generalizing s with
    | nil => intro _; rfl
    | cons m rest ih =>
      intro hh
      have h0 : (runChain [m] s).halted = false := by
        have := hh 0 (by simp)
        simpa [List.take_succ_cons] using this
      have hm : (m s).halted = false := by
        have h1 : runChain [m] s = m s := by
          rw [runChain_cons]
          split <;> rfl
        rw [h1] at h0
        exact h0
      rw [run_cons, if_neg (by simp [hm])]
      rw [ih (m s) ?cond]
      · rw [runChain_cons, if_neg (by simp [hm])]
      case cond =>
        intro k hk
        have := hh (k + 1) (by simpa using Nat.succ_lt_succ hk)
        rw [List.take_succ_cons, runChain_cons, if_neg (by simp [hm])] at this
        exact this

/-- C5 (witness): in the chain where index 1 halts after logging, the run
stops there: the result equals the two-step truncated chain, whose log
shows indices 0 and 1 only, and neither index 2 nor the handler logged.
In the chain with one non-halting middleware the handler runs once. -/
theorem c5_halt_protocol_witness :
    GoRouter.run mwsHalt (some logHandler) blankState =
      some (runChain (mwsHalt.take 2) blankState) ∧
    (runChain (mwsHalt.take 2) blankState).log = [Ev.mwSaw 0 [], Ev.mwSaw 1 []] ∧
    GoRouter.run [logMw 0] (some logHandler) blankState =
      some (logHandler (runChain [logMw 0] blankState)) ∧
    (logHandler (runChain [logMw 0] blankState)).log =
      [Ev.mwSaw 0 [], Ev.handlerSaw []] := by
  refine ⟨?_, by decide, ?_, by decide⟩
  · exact c5_halt_protocol.1 mwsHalt logHandler blankState 1 (by decide) (logMw 1) rfl
  · apply c5_halt_protocol.2 [logMw 0] logHandler blankState
    intro k hk
    have hk0 : k = 0 := by simpa using hk
    rw [hk0]
    decide

/-! Claim C6. -/

/-- C6: when the route table of the resolved router is exhausted with no
match, ServeHTTP writes status 404 and then applies the not-found handler
of the original receiver router (not of the resolved sub-router) iff one
is registered; the result is exactly those two effects, so no route
handler and no middleware runs. -/
theorem c6_not_found (r : GoRouter) (req : GoRequest) (s : ReqState) (rr : GoRouter)
    (hf : findMatchingRouter r req.urlPath = some rr)
    (hm : findFirstMatch rr (getMethod req) (goReplaceFirst req.urlPath rr.basePath)
      rr.routes = some none) :
    GoRouter.ServeHTTP r req s =
      some ((match r.notFoundHandler with
             | some h => h (writeHeader s 404)
             | none => writeHeader s 404), r) := by
  cases hn : r.notFoundHandler with
  | some nfh => simp only [GoRouter.ServeHTTP, hf, hm, hn]
  | none => simp only [GoRouter.ServeHTTP, hf, hm, hn]

/-- C6 (witness): the request /api/none resolves to the sub-router subC6
(base /api, not-found handler logging tag 200), matches none of its
routes, and the response carries status 404 together with the log of the
not-found handler of the outermost router routerC6 (tag 100), not the one
of the sub-router. -/
theorem c6_not_found_witness :
    (GoRouter.ServeHTTP routerC6 reqC6 blankState).map Prod.fst =
      some { ctxParams := none, halted := false, status := some 404, log := [Ev.tag 100] } ∧
    [Ev.tag 100] ≠ [Ev.tag 200] := by
  constructor
  · have h := c6_not_found routerC6 reqC6 blankState subC6
      (by simp +decide [findMatchingRouter, findMatchingRouterL, routerC6, subC6, reqC6])
      (by rfl)
    rw [h]
    decide
  · decide

/-! Claim C7. -/

/-- C7 (counterexample): the claim states that ServeHTTP never panics and
that dispatch degrades to a status write even when no base path is a
prefix of the request path.  For the router New("/base") and the request
path /x, findMatchingRouter returns nil and ServeHTTP dereferences the nil
router (the embedded none): dispatch aborts instead of writing a status. -/
theorem c7_counterexample :
    findMatchingRouter routerC7 (str "/x") = none ∧
    (GoRouter.ServeHTTP routerC7 reqC7 blankState).isNone = true := by
  constructor
  · simp +decide [findMatchingRouter, findMatchingRouterL, routerC7, New]
  · simp +decide [GoRouter.ServeHTTP, findMatchingRouter, findMatchingRouterL, routerC7,
      reqC7, New]

/-- Helper: a successful route scan returns a descriptor from the list. -/
theorem findFirstMatch_mem (rr : GoRouter) (m path : Str) (l : List (GoRoute × GoOps))
    (ops : GoOps) (params : List (Str × Str))
    (h : findFirstMatch rr m path l = some (some (ops, params))) :
    ∃ rt, (rt, ops) ∈ l := by
  induction l with
  | nil => simp [findFirstMatch] at h
  | cons p rest ih =>
    obtain ⟨rt0, ops0⟩ := p
    simp only [findFirstMatch] at h
    cases hm : matchesFn rr rt0 m path ops0.handler.isSome with
    | none =>
      rw [hm] at h
      exact absurd h (by simp)
    | some pr =>
      obtain ⟨ok, ps⟩ := pr
      rw [hm] at h
      cases ok with
      | true =>
        simp only [Option.some.injEq] at h
        have h1 : ops0 = ops := congrArg Prod.fst h
        exact ⟨rt0, by rw [← h1]; exact List.mem_cons_self _ _⟩
      | false =>
        obtain ⟨rt, hmem⟩ := ih h
        exact ⟨rt, List.mem_cons_of_mem _ hmem⟩

/-- C7 (amended): ServeHTTP completes without aborting whenever some
router in the tree claims the request path (findMatchingRouter succeeds)
and the resolved router is well-formed (every registered route has a
handler variant and no empty pattern segment); when no base path is a
prefix of the request path, dispatch instead dereferences the nil router
and aborts, as the counterexample shows. -/
theorem c7_no_abort (r : GoRouter) (req : GoRequest) (s : ReqState) (rr : GoRouter)
    (hf : findMatchingRouter r req.urlPath = some rr)
    (hwf : wellFormedRouter rr = true) :
    (GoRouter.ServeHTTP r req s).isSome = true := by
  have hall : ∀ p ∈ rr.routes, wfRoute rr.basePath p.1 = true := by
    intro p hp
    have h2 := (List.all_eq_true.mp hwf) p hp
    rw [Bool.and_eq_true] at h2
    exact h2.2
  have hfm := findFirstMatch_isSome rr (getMethod req)
    (goReplaceFirst req.urlPath rr.basePath) rr.routes hall
  obtain ⟨o, ho⟩ := Option.isSome_iff_exists.mp hfm
  cases o with
  | none =>
    cases hn : r.notFoundHandler with
    | some nfh => simp [GoRouter.ServeHTTP, hf, ho, hn]
    | none => simp [GoRouter.ServeHTTP, hf, ho, hn]
  | some pr =>
    obtain ⟨ops, params⟩ := pr
    obtain ⟨rt, hmem⟩ := findFirstMatch_mem rr (getMethod req)
      (goReplaceFirst req.urlPath rr.basePath) rr.routes ops params ho
    have hwp : wfOps ops = true := by
      have h2 := (List.all_eq_true.mp hwf) (rt, ops) hmem
      rw [Bool.and_eq_true] at h2
      exact h2.1
    have hres : (resolveHandler ops).isSome = true := by
      cases hfn : ops.fn with
      | some f => simp [resolveHandler, hfn]
      | none =>
        simp only [resolveHandler, hfn]
        simp only [wfOps, hfn, Option.isSome_none, Bool.false_or] at hwp
        exact hwp
    obtain ⟨f, hfh⟩ := Option.isSome_iff_exists.mp hres
    obtain ⟨s2, hs2⟩ := Option.isSome_iff_exists.mp
      (run_isSome (rr.mw ++ [setURLParams params]) f s)
    simp [GoRouter.ServeHTTP, hf, ho, hfh, hs2]

/-- C7 (witness): routerC7w resolves and is well-formed, so dispatching
GET /ping completes. -/
theorem c7_no_abort_witness :
    (GoRouter.ServeHTTP routerC7w reqC7w blankState).isSome = true :=
  c7_no_abort routerC7w reqC7w blankState routerC7w
    (by simp +decide [findMatchingRouter, findMatchingRouterL, routerC7w, reqC7w])
    (by decide)

/-! Claim C9. -/

/-- C9: SubRouter returns a child whose base path is the parent base path
followed by the suffix, except that a root parent (base path exactly /)
contributes nothing; the child is appended to the parent child list; and
no modelled operation (SubRouter, Before, NotFound, bindRoute and its
method wrappers, Handle, or a completed dispatch) changes the base path of
a router after construction. -/
theorem c9_subrouter_basepath :
    (∀ (r : GoRouter) (p : Str),
      ((r.SubRouter p).2).basePath = (if r.basePath = str "/" then [] else r.basePath) ++ p) ∧
    (∀ (r : GoRouter) (p : Str),
      ((r.SubRouter p).1).subRouters = r.subRouters ++ [(r.SubRouter p).2]) ∧
    (∀ (r : GoRouter) (p : Str), ((r.SubRouter p).1).basePath = r.basePath) ∧
    (∀ (r : GoRouter) (fns : List MW), (r.Before fns).basePath = r.basePath) ∧
    (∀ (r : GoRouter) (h : MW), (r.NotFound h).basePath = r.basePath) ∧
    (∀ (r : GoRouter) (m p : Str) (o : GoOps), (r.bindRoute m p o).basePath = r.basePath) ∧
    (∀ (r : GoRouter) (m p : Str) (f : MW), (r.HandleFunc m p f).basePath = r.basePath) ∧
    (∀ (r : GoRouter) (p : Str) (f : MW), (r.Get p f).basePath = r.basePath) ∧
    (∀ (r : GoRouter) (p : Str) (f : MW), (r.Post p f).basePath = r.basePath) ∧
    (∀ (r : GoRouter) (p : Str) (f : MW), (r.Put p f).basePath = r.basePath) ∧
    (∀ (r : GoRouter) (p : Str) (f : MW), (r.Delete p f).basePath = r.basePath) ∧
    (∀ (r : GoRouter) (p : Str) (f : MW), (r.Patch p f).basePath = r.basePath) ∧
    (∀ (r : GoRouter) (p : Str) (h : MW), (r.Handle p h).basePath = r.basePath) ∧
    (∀ (r : GoRouter) (req : GoRequest) (s : ReqState) (out : ReqState × GoRouter),
      GoRouter.ServeHTTP r req s = some out → out.2.basePath = r.basePath) := by
  refine ⟨?_, ?_, ?_, ?_, ?_, ?_, ?_, ?_, ?_, ?_, ?_, ?_, ?_, ?_⟩
  · intro r p
    cases r with
    | mk bp rs subs nfh mws =>
      by_cases h : bp = str "/" <;>
        simp [GoRouter.SubRouter, GoRouter.basePath, h]
  · intro r p
    cases r with
    | mk bp rs subs nfh mws => simp [GoRouter.SubRouter, GoRouter.subRouters]
  · intro r p
    cases r with
    | mk bp rs subs nfh mws => simp [GoRouter.SubRouter, GoRouter.basePath]
  · intro r fns
    cases r with
    | mk bp rs subs nfh mws => rfl
  · intro r h
    cases r with
    | mk bp rs subs nfh mws => rfl
  · intro r m p o
    cases r with
    | mk bp rs subs nfh mws => rfl
  · intro r m p f
    cases r with
    | mk bp rs subs nfh mws => rfl
  · intro r p f
    cases r with
    | mk bp rs subs nfh mws => rfl
  · intro r p f
    cases r with
    | mk bp rs subs nfh mws => rfl
  · intro r p f
    cases r with
    | mk bp rs subs nfh mws => rfl
  · intro r p f
    cases r with
    | mk bp rs subs nfh mws => rfl
  · intro r p f
    cases r with
    | mk bp rs subs nfh mws => rfl
  · intro r p h
    cases r with
    | mk bp rs subs nfh mws => rfl
  · intro r req s out h
    rw [serveHTTP_snd r req s out h]

/-- C9 (witness): a parent with base /foo yields a child with base
/foo/bar, a root parent yields a child with base equal to the suffix
alone, parent bases survive SubRouter, and a completed dispatch returns a
router with the original base path. -/
theorem c9_subrouter_basepath_witness :
    ((GoRouter.SubRouter (New (str "/foo")) (str "/bar")).2).basePath = str "/foo/bar" ∧
    ((GoRouter.SubRouter (New []) (str "/admin")).2).basePath = str "/admin" ∧
    ((GoRouter.SubRouter (New (str "/foo")) (str "/bar")).1).basePath = str "/foo" ∧
    (({ ctxParams := none, halted := false, status := some 404, log := [Ev.tag 100] },
        routerC6) : ReqState × GoRouter).2.basePath = routerC6.basePath := by
  refine ⟨?_, ?_, ?_, ?_⟩
  · have h := c9_subrouter_basepath.1 (New (str "/foo")) (str "/bar")
    rw [h]
    decide
  · have h := c9_subrouter_basepath.1 (New []) (str "/admin")
    rw [h]
    decide
  · have h := c9_subrouter_basepath.2.2.1 (New (str "/foo")) (str "/bar")
    rw [h]
    decide
  · apply c9_subrouter_basepath.2.2.2.2.2.2.2.2.2.2.2.2.2 routerC6 reqC6 blankState
    have hf : findMatchingRouter routerC6 reqC6.urlPath = some subC6 := by
      simp +decide [findMatchingRouter, findMatchingRouterL, routerC6, subC6, reqC6]
    simp only [GoRouter.ServeHTTP, hf]
    rfl

/-! Claim C10. -/

/-- C10 (counterexample): the claim states that each matched dispatch
permanently appends the param-binding function to the middleware list of
the resolved router.  Dispatching GET /users/7 on routerC10 matches (the
handler logs the bound id=7), yet the router returned by dispatch still
has zero middleware, not one: the append went to the per-dispatch copy
produced by the value-receiver findMatchingRouter, and the persistent
router is unchanged. -/
theorem c10_counterexample :
    (GoRouter.ServeHTTP routerC10 reqC10 blankState).map (fun out => out.1.log) =
      some [Ev.handlerSaw [(str "id", str "7")]] ∧
    (GoRouter.ServeHTTP routerC10 reqC10 blankState).map (fun out => out.2.mw.length) =
      some 0 ∧
    routerC10.mw.length = 0 := by
  refine ⟨?_, ?_, by decide⟩
  · simp +decide [GoRouter.ServeHTTP, findMatchingRouter, findMatchingRouterL, routerC10,
      reqC10, findFirstMatch, matchesFn, GoRouter.run, blankState, logHandler, setURLParams,
      Params]
  · simp +decide [GoRouter.ServeHTTP, findMatchingRouter, findMatchingRouterL, routerC10,
      reqC10, findFirstMatch, matchesFn, GoRouter.run, blankState, logHandler, setURLParams,
      Params]

/-- C10 (amended): dispatch appends the param-binding step only to the
per-dispatch copy of the resolved router (whose chain therefore has one
more entry than the registered middleware list), and every completed
dispatch returns the persistent router tree unchanged: router state is
mutated by registration calls only, never by dispatch. -/
theorem c10_dispatch_frame :
    (∀ (r : GoRouter) (req : GoRequest) (s : ReqState) (out : ReqState × GoRouter),
      GoRouter.ServeHTTP r req s = some out → out.2 = r) ∧
    (∀ (rr : GoRouter) (params : List (Str × Str)),
      (rr.mw ++ [setURLParams params]).length = rr.mw.length + 1) := by
  constructor
  · exact serveHTTP_snd
  · intro rr params
    simp

/-- C10 (witness): the matched dispatch of routerC10 returns the router
unchanged, and the per-dispatch chain has one more entry than the
registered middleware list. -/
theorem c10_dispatch_frame_witness :
    (({ ctxParams := some [(str "id", str "7")], halted := false, status := none,
        log := [Ev.handlerSaw [(str "id", str "7")]] }, routerC10) :
        ReqState × GoRouter).2 = routerC10 ∧
    (routerC10.mw ++ [setURLParams [(str "id", str "7")]]).length =
      routerC10.mw.length + 1 := by
  constructor
  · apply c10_dispatch_frame.1 routerC10 reqC10 blankState
    have hf : findMatchingRouter routerC10 reqC10.urlPath = some routerC10 := by
      simp +decide [findMatchingRouter, findMatchingRouterL, routerC10, reqC10]
    simp only [GoRouter.ServeHTTP, hf]
    rfl
  · exact c10_dispatch_frame.2 routerC10 [(str "id", str "7")]
